import Mathlib

/-!
Verification of the MCP configuration manager's adapter contract and
project/user merge engine.

The TypeScript source operates on plain JSON objects (`Record<string,
MCPServer>`).  We embed those objects as association lists
`List (String × MCPServer)` with JavaScript object semantics:
key lookup returns the (unique) binding, assignment `obj[k] = v` replaces
the value in place when the key is present and appends otherwise, and
`delete obj[k]` removes the key.  JavaScript objects never hold duplicate
keys; `objErase` removes every binding of the key so that the embedding is
total on all lists and agrees with `delete` on every representable object.
-/

/-- Embeds the source interface `MCPServer` (src/src/adapters/base.ts):
a launch descriptor with a command, optional args and optional env.
Absent `args`/`env` are represented by the empty list. -/
structure MCPServer where
  command : String
  args : List String := []
  env : List (String × String) := []
  deriving Repr, DecidableEq

/-- Association-list lookup with JavaScript semantics: the value bound to
`k`, or `none` when the key is absent (JS `undefined`). -/
def objLookup (m : List (String × MCPServer)) (k : String) : Option MCPServer :=
  match m with
  | [] => none
  | (k', v) :: rest => if k' = k then some v else objLookup rest k

/-- Key membership, the embedding of JS truthiness of `obj[k]` for object
values and of `Object.keys(obj).includes(k)`. -/
def objMem (m : List (String × MCPServer)) (k : String) : Bool :=
  (objLookup m k).isSome

/-- Embeds `Object.keys(obj)`: the keys in insertion order. -/
def objKeys (m : List (String × MCPServer)) : List String :=
  m.map Prod.fst

/-- Embeds JS assignment `obj[k] = v`: replace the binding in place when
`k` is present, append `(k, v)` otherwise. -/
def objInsert (m : List (String × MCPServer)) (k : String) (v : MCPServer) :
    List (String × MCPServer) :=
  match m with
  | [] => [(k, v)]
  | (k', v') :: rest =>
      if k' = k then (k, v) :: rest else (k', v') :: objInsert rest k v

/-- Embeds JS `delete obj[k]`: remove the binding of `k` (all of them,
which on duplicate-free objects is the unique one). -/
def objErase (m : List (String × MCPServer)) (k : String) :
    List (String × MCPServer) :=
  m.filter (fun p => ¬ (p.1 = k))

/-- Embeds the source interface `MCPConfig` (src/src/adapters/base.ts):
the enabled and disabled server maps of one snapshot. -/
structure MCPConfig where
  enabled : List (String × MCPServer)
  disabled : List (String × MCPServer)
  deriving Repr, DecidableEq

/-- Embeds `BaseAdapter.getEnabledServers`. -/
def getEnabledServers (config : MCPConfig) : List String :=
  objKeys config.enabled

/-- Embeds `BaseAdapter.getDisabledServers`. -/
def getDisabledServers (config : MCPConfig) : List String :=
  objKeys config.disabled

/-- Embeds `BaseAdapter.getAllServers`: enabled keys then disabled keys. -/
def getAllServers (config : MCPConfig) : List String :=
  getEnabledServers config ++ getDisabledServers config

/-- Embeds `BaseAdapter.isServerEnabled`. -/
def isServerEnabled (config : MCPConfig) (serverName : String) : Bool :=
  (getEnabledServers config).contains serverName

/-- Embeds `BaseAdapter.enableServer`: throws unless `serverName` is a key
of `disabled`; otherwise moves the record disabled → enabled. -/
def enableServer (config : MCPConfig) (serverName : String) :
    Except String MCPConfig :=
  match objLookup config.disabled serverName with
  | none =>
      .error ("Server \"" ++ serverName ++ "\" is not disabled or does not exist")
  | some record =>
      .ok { config with
              enabled := objInsert config.enabled serverName record,
              disabled := objErase config.disabled serverName }

/-- Embeds `BaseAdapter.disableServer`: throws unless `serverName` is a key
of `enabled`; otherwise moves the record enabled → disabled. -/
def disableServer (config : MCPConfig) (serverName : String) :
    Except String MCPConfig :=
  match objLookup config.enabled serverName with
  | none =>
      .error ("Server \"" ++ serverName ++ "\" is not enabled or does not exist")
  | some record =>
      .ok { config with
              disabled := objInsert config.disabled serverName record,
              enabled := objErase config.enabled serverName }

/-- Embeds `BaseAdapter.toggleServer`: dispatch on current membership,
throwing when the name is in neither map. -/
def toggleServer (config : MCPConfig) (serverName : String) :
    Except String MCPConfig :=
  if isServerEnabled config serverName then
    disableServer config serverName
  else if (objLookup config.disabled serverName).isSome then
    enableServer config serverName
  else
    .error ("Server \"" ++ serverName ++ "\" does not exist")

/-- One call of the adapter's mutation contract. -/
inductive ServerOp where
  | enable (serverName : String)
  | disable (serverName : String)
  | toggle (serverName : String)
  deriving Repr, DecidableEq

/-- Applies one call to a snapshot. -/
def applyOp (config : MCPConfig) : ServerOp → Except String MCPConfig
  | .enable n => enableServer config n
  | .disable n => disableServer config n
  | .toggle n => toggleServer config n

/-- Runs a sequence of calls; a call that raises leaves the snapshot
unchanged (the source checks its precondition before mutating). -/
def runOps (config : MCPConfig) : List ServerOp → MCPConfig
  | [] => config
  | op :: rest =>
      match applyOp config op with
      | .ok config' => runOps config' rest
      | .error _ => runOps config rest

/-- Disjointness of the enabled and disabled key sets of a snapshot. -/
def KeysDisjoint (config : MCPConfig) : Prop :=
  ∀ n : String, ¬ (objMem config.enabled n = true ∧ objMem config.disabled n = true)

theorem objLookup_objInsert_self (m : List (String × MCPServer)) (k : String)
    (v : MCPServer) : objLookup (objInsert m k v) k = some v := by
  induction m with
  | nil => simp [objInsert, objLookup]
  | cons p rest ih =>
      obtain ⟨k', v'⟩ := p
      by_cases hk : k' = k
      · simp [objInsert, hk, objLookup]
      · simp [objInsert, hk, objLookup, ih]

theorem objLookup_objInsert_ne (m : List (String × MCPServer)) (k k' : String)
    (v : MCPServer) (h : k' ≠ k) :
    objLookup (objInsert m k v) k' = objLookup m k' := by
  have h1 : ¬ k = k' := fun h2 => h h2.symm
  induction m with
  | nil => simp [objInsert, objLookup, h1]
  | cons p rest ih =>
      obtain ⟨k₀, v₀⟩ := p
      by_cases hk : k₀ = k
      · have h2 : ¬ k₀ = k' := by rw [hk]; exact h1
        simp [objInsert, hk, objLookup, h1, h2]
      · by_cases hk' : k₀ = k'
        · simp [objInsert, hk, objLookup, hk', h1, h]
        · simp [objInsert, hk, objLookup, hk', ih]

theorem objLookup_objErase_self (m : List (String × MCPServer)) (k : String) :
    objLookup (objErase m k) k = none := by
  induction m with
  | nil => rfl
  | cons p rest ih =>
      obtain ⟨k₀, v₀⟩ := p
      by_cases hk : k₀ = k
      · simpa [objErase, List.filter_cons, hk] using ih
      · simpa [objErase, List.filter_cons, hk, objLookup] using ih

theorem objLookup_objErase_ne (m : List (String × MCPServer)) (k k' : String)
    (h : k' ≠ k) : objLookup (objErase m k) k' = objLookup m k' := by
  induction m with
  | nil => rfl
  | cons p rest ih =>
      obtain ⟨k₀, v₀⟩ := p
      by_cases hk : k₀ = k
      · have hkk' : ¬ k₀ = k' := by
          rw [hk]; exact fun h2 => h h2.symm
        have h1 : ¬ k = k' := fun h2 => h h2.symm
        simp [objErase, List.filter_cons, hk, objLookup, hkk', h1, h] at ih ⊢
        exact ih
      · by_cases hk' : k₀ = k'
        · simp [objErase, List.filter_cons, hk, objLookup, hk', h]
        · simp [objErase, List.filter_cons, hk, objLookup, hk'] at ih ⊢
          exact ih

theorem objInsert_of_not_mem (m : List (String × MCPServer)) (k : String)
    (v : MCPServer) (h : objLookup m k = none) :
    objInsert m k v = m ++ [(k, v)] := by
  induction m with
  | nil => rfl
  | cons p rest ih =>
      obtain ⟨k₀, v₀⟩ := p
      by_cases hk : k₀ = k
      · simp [objLookup, hk] at h
      · simp only [objLookup, if_neg hk] at h
        simp [objInsert, hk, ih h]

theorem objErase_of_not_mem (m : List (String × MCPServer)) (k : String)
    (h : objLookup m k = none) : objErase m k = m := by
  induction m with
  | nil => rfl
  | cons p rest ih =>
      obtain ⟨k₀, v₀⟩ := p
      by_cases hk : k₀ = k
      · simp [objLookup, hk] at h
      · simp only [objLookup, if_neg hk] at h
        simp [objErase, List.filter_cons, hk] at ih ⊢
        exact ih h

theorem mem_objKeys_iff (m : List (String × MCPServer)) (k : String) :
    k ∈ objKeys m ↔ objMem m k = true := by
  induction m with
  | nil => simp [objKeys, objMem, objLookup]
  | cons p rest ih =>
      obtain ⟨k₀, v₀⟩ := p
      by_cases hk : k₀ = k
      · simp [objKeys, objMem, objLookup, hk]
      · simpa [objKeys, objMem, objLookup, hk, Ne.symm hk] using ih

theorem contains_objKeys_eq (m : List (String × MCPServer)) (k : String) :
    (objKeys m).contains k = objMem m k := by
  by_cases hmem : k ∈ objKeys m
  · have h2 := (mem_objKeys_iff m k).mp hmem
    simp [hmem, h2]
  · have h2 : objMem m k = false := by
      cases hb : objMem m k
      · rfl
      · exact absurd ((mem_objKeys_iff m k).mpr hb) hmem
    simp [hmem, h2]

theorem enableServer_preserves_disjoint (c c' : MCPConfig) (n : String)
    (hd : KeysDisjoint c) (h : enableServer c n = .ok c') : KeysDisjoint c' := by
  unfold enableServer at h
  cases hl : objLookup c.disabled n with
  | none => rw [hl] at h; cases h
  | some r =>
      rw [hl] at h
      cases h
      intro m hm
      rcases hm with ⟨h1, h2⟩
      by_cases hmn : m = n
      · subst hmn
        simp only [objMem, objLookup_objErase_self] at h2
        cases h2
      · rw [objMem, objLookup_objInsert_ne _ _ _ _ hmn] at h1
        rw [objMem, objLookup_objErase_ne _ _ _ hmn] at h2
        exact hd m ⟨h1, h2⟩

theorem disableServer_preserves_disjoint (c c' : MCPConfig) (n : String)
    (hd : KeysDisjoint c) (h : disableServer c n = .ok c') : KeysDisjoint c' := by
  unfold disableServer at h
  cases hl : objLookup c.enabled n with
  | none => rw [hl] at h; cases h
  | some r =>
      rw [hl] at h
      cases h
      intro m hm
      rcases hm with ⟨h1, h2⟩
      by_cases hmn : m = n
      · subst hmn
        simp only [objMem, objLookup_objErase_self] at h1
        cases h1
      · rw [objMem, objLookup_objErase_ne _ _ _ hmn] at h1
        rw [objMem, objLookup_objInsert_ne _ _ _ _ hmn] at h2
        exact hd m ⟨h1, h2⟩

theorem toggleServer_preserves_disjoint (c c' : MCPConfig) (n : String)
    (hd : KeysDisjoint c) (h : toggleServer c n = .ok c') : KeysDisjoint c' := by
  unfold toggleServer at h
  by_cases he : isServerEnabled c n
  · rw [if_pos he] at h
    exact disableServer_preserves_disjoint c c' n hd h
  · rw [if_neg he] at h
    by_cases hdis : (objLookup c.disabled n).isSome
    · rw [if_pos hdis] at h
      exact enableServer_preserves_disjoint c c' n hd h
    · rw [if_neg hdis] at h
      cases h

theorem applyOp_preserves_disjoint (c c' : MCPConfig) (op : ServerOp)
    (hd : KeysDisjoint c) (h : applyOp c op = .ok c') : KeysDisjoint c' := by
  cases op with
  | enable n => exact enableServer_preserves_disjoint c c' n hd h
  | disable n => exact disableServer_preserves_disjoint c c' n hd h
  | toggle n => exact toggleServer_preserves_disjoint c c' n hd h

/-- C3: starting from any snapshot whose enabled and disabled key sets are
disjoint, any finite sequence of enableServer / disableServer / toggleServer
calls (a raising call leaves the snapshot unchanged) yields a snapshot whose
enabled and disabled key sets are still disjoint. -/
theorem c3_disjoint_preserved_by_ops (c : MCPConfig) (ops : List ServerOp)
    (hd : KeysDisjoint c) : KeysDisjoint (runOps c ops) := by
  induction ops generalizing c with
  | nil => exact hd
  | cons op rest ih =>
      unfold runOps
      cases h : applyOp c op with
      | ok c' => exact ih c' (applyOp_preserves_disjoint c c' op hd h)
      | error e => exact ih c hd

/-- Witness for C3 at a concrete snapshot and call sequence. -/
theorem c3_disjoint_preserved_by_ops_witness :
    KeysDisjoint (runOps
      { enabled := [("a", { command := "run-a" })],
        disabled := [("b", { command := "run-b" })] }
      [.toggle "a", .enable "b", .enable "missing", .disable "b"]) := by
  apply c3_disjoint_preserved_by_ops
  intro n hn
  rcases hn with ⟨h1, h2⟩
  simp only [objMem, objLookup] at h1 h2
  by_cases ha : "a" = n
  · rw [← ha] at h2
    simp at h2
  · simp [ha] at h1

/-- C4: if `n` is disabled and not enabled in `S`, then enabling and then
disabling `n` succeeds and restores the original enabled/disabled key-set
membership, and the record stored under `n` afterwards is (deeply) equal to
the original one, args and env included. -/
theorem c4_enable_disable_roundtrip (S : MCPConfig) (n : String)
    (hdis : objMem S.disabled n = true) (hen : objMem S.enabled n = false) :
    ∃ S1 S2, enableServer S n = .ok S1 ∧ disableServer S1 n = .ok S2 ∧
      (∀ m, objMem S2.enabled m = objMem S.enabled m) ∧
      (∀ m, objMem S2.disabled m = objMem S.disabled m) ∧
      objLookup S2.disabled n = objLookup S.disabled n ∧
      (objLookup S2.disabled n).map MCPServer.args =
        (objLookup S.disabled n).map MCPServer.args ∧
      (objLookup S2.disabled n).map MCPServer.env =
        (objLookup S.disabled n).map MCPServer.env := by
  cases hl : objLookup S.disabled n with
  | none => rw [objMem, hl] at hdis; cases hdis
  | some r =>
      have hlen : objLookup S.enabled n = none := by
        rw [objMem] at hen
        cases hle : objLookup S.enabled n with
        | none => rfl
        | some r' => rw [hle] at hen; cases hen
      refine ⟨{ enabled := objInsert S.enabled n r, disabled := objErase S.disabled n },
        { enabled := objErase (objInsert S.enabled n r) n,
          disabled := objInsert (objErase S.disabled n) n r },
        ?_, ?_, ?_, ?_, ?_, ?_, ?_⟩
      · unfold enableServer
        rw [hl]
      · unfold disableServer
        rw [objLookup_objInsert_self]
      · intro m
        by_cases hmn : m = n
        · subst hmn
          simp only [objMem, objLookup_objErase_self, hlen]
        · simp only [objMem, objLookup_objErase_ne _ _ _ hmn,
            objLookup_objInsert_ne _ _ _ _ hmn]
      · intro m
        by_cases hmn : m = n
        · subst hmn
          simp only [objMem, objLookup_objInsert_self, hl]
        · simp only [objMem, objLookup_objInsert_ne _ _ _ _ hmn,
            objLookup_objErase_ne _ _ _ hmn]
      · simp only [objLookup_objInsert_self, hl]
      · simp only [objLookup_objInsert_self, hl]
      · simp only [objLookup_objInsert_self, hl]

/-- Concrete snapshot used by the round-trip witness: one disabled server
with nonempty args and env, nothing enabled. -/
def roundtripSample : MCPConfig :=
  { enabled := [],
    disabled := [("srv",
      { command := "npx", args := ["-y", "pkg"], env := [("KEY", "VAL")] })] }

/-- Witness for C4 at a concrete snapshot with nonempty args and env. -/
theorem c4_enable_disable_roundtrip_witness :
    ∃ S1 S2, enableServer roundtripSample "srv" = .ok S1 ∧
      disableServer S1 "srv" = .ok S2 ∧
      (∀ m, objMem S2.enabled m = objMem roundtripSample.enabled m) ∧
      (∀ m, objMem S2.disabled m = objMem roundtripSample.disabled m) ∧
      objLookup S2.disabled "srv" = objLookup roundtripSample.disabled "srv" ∧
      (objLookup S2.disabled "srv").map MCPServer.args =
        (objLookup roundtripSample.disabled "srv").map MCPServer.args ∧
      (objLookup S2.disabled "srv").map MCPServer.env =
        (objLookup roundtripSample.disabled "srv").map MCPServer.env :=
  c4_enable_disable_roundtrip roundtripSample "srv" (by decide) (by decide)

/-- Embeds the source interface `ServerInheritance`: provenance lists for
the merged enabled set. -/
structure ServerInheritance where
  inherited : List String
  overridden : List String
  additions : List String
  deriving Repr, DecidableEq

/-- Embeds the source interface `ScopedMCPConfig`: a snapshot plus
inheritance tracking and scope. -/
structure ScopedMCPConfig where
  enabled : List (String × MCPServer)
  disabled : List (String × MCPServer)
  inheritance : ServerInheritance
  scope : String
  deriving Repr, DecidableEq

/-- Mutable state of the two merge loops in
`ClaudeAdapter.getMergedConfig` (src/unnamed/part_003): the object
`mergedEnabled` plus the three provenance lists being pushed to. -/
structure MergeState where
  mergedEnabled : List (String × MCPServer)
  inherited : List String
  overridden : List String
  additions : List String
  deriving Repr, DecidableEq

/-- One iteration of merge loop 1 (over `userEnabledNames`): skip names in
`projectDisabledNames`; names also in `projectEnabledNames` take the
project record and are pushed to `overridden`; the rest take the user
record and are pushed to `inherited`. -/
def mergeUserStep (userConfig projectConfig : MCPConfig) (st : MergeState)
    (name : String) : MergeState :=
  if !((objKeys projectConfig.disabled).contains name) then
    if (objKeys projectConfig.enabled).contains name then
      { st with
          mergedEnabled := objInsert st.mergedEnabled name
            ((objLookup projectConfig.enabled name).getD { command := "" }),
          overridden := st.overridden ++ [name] }
    else
      { st with
          mergedEnabled := objInsert st.mergedEnabled name
            ((objLookup userConfig.enabled name).getD { command := "" }),
          inherited := st.inherited ++ [name] }
  else st

/-- One iteration of merge loop 2 (over `projectEnabledNames`): names not
in `userEnabledNames` take the project record and are pushed to
`additions`. -/
def mergeProjectStep (userConfig projectConfig : MCPConfig) (st : MergeState)
    (name : String) : MergeState :=
  if !((objKeys userConfig.enabled).contains name) then
    { st with
        mergedEnabled := objInsert st.mergedEnabled name
          ((objLookup projectConfig.enabled name).getD { command := "" }),
        additions := st.additions ++ [name] }
  else st

/-- One iteration of the merged-disabled loop (over
`projectDisabledNames`): the record comes from `projectConfig.enabled`
when present, else from `userConfig.enabled`, else is the empty-command
placeholder. -/
def mergeDisabledStep (userConfig projectConfig : MCPConfig)
    (acc : List (String × MCPServer)) (name : String) :
    List (String × MCPServer) :=
  if (objLookup projectConfig.enabled name).isSome then
    objInsert acc name ((objLookup projectConfig.enabled name).getD { command := "" })
  else if (objLookup userConfig.enabled name).isSome then
    objInsert acc name ((objLookup userConfig.enabled name).getD { command := "" })
  else
    objInsert acc name { command := "" }

/-- Embeds `ClaudeAdapter.getMergedConfig` (src/unnamed/part_003, lines
219–308), with the two on-disk loads factored out as parameters: the user
snapshot is `userConfig`, and `projectConfig?` is the result of
`loadProjectConfig` (`none` when no project entry exists). -/
def getMergedConfig (userConfig : MCPConfig) (projectConfig? : Option MCPConfig) :
    ScopedMCPConfig :=
  match projectConfig? with
  | none =>
      { enabled := userConfig.enabled,
        disabled := userConfig.disabled,
        scope := "user",
        inheritance :=
          { inherited := objKeys userConfig.enabled,
            overridden := [],
            additions := [] } }
  | some projectConfig =>
      let projectDisabledNames := objKeys projectConfig.disabled
      let userEnabledNames := objKeys userConfig.enabled
      let projectEnabledNames := objKeys projectConfig.enabled
      let st1 := userEnabledNames.foldl (mergeUserStep userConfig projectConfig)
        { mergedEnabled := [], inherited := [], overridden := [], additions := [] }
      let st2 := projectEnabledNames.foldl (mergeProjectStep userConfig projectConfig) st1
      let mergedDisabled := projectDisabledNames.foldl
        (mergeDisabledStep userConfig projectConfig) userConfig.disabled
      { enabled := st2.mergedEnabled,
        disabled := mergedDisabled,
        inheritance :=
          { inherited := st2.inherited,
            overridden := st2.overridden,
            additions := st2.additions },
        scope := "project" }

theorem objLookup_foldl_cond_insert (c : String → Bool) (v : String → MCPServer)
    (names : List String) (acc : List (String × MCPServer)) (k : String) :
    objLookup (names.foldl (fun a n => if c n then objInsert a n (v n) else a) acc) k =
      if names.contains k && c k then some (v k) else objLookup acc k := by
  induction names generalizing acc with
  | nil => simp
  | cons x xs ih =>
      simp only [List.foldl_cons]
      rw [ih]
      by_cases hxk : x = k
      · subst hxk
        by_cases hc : c x = true
        · by_cases hm : xs.contains x = true
          · simp [hm, hc, objLookup_objInsert_self]
          · simp [hm, hc, objLookup_objInsert_self]
        · by_cases hm : xs.contains x = true
          · simp [hm, hc]
          · simp [hm, hc]
      · have hne : ¬ k = x := fun h2 => hxk h2.symm
        have hlook : objLookup (if c x = true then objInsert acc x (v x) else acc) k =
            objLookup acc k := by
          by_cases hcx : c x = true
          · simp [hcx, objLookup_objInsert_ne _ _ _ _ hne]
          · simp [hcx]
        by_cases hc : c k = true
        · by_cases hm : xs.contains k = true
          · have hmem : k ∈ xs := by simpa using hm
            simp [hmem, hc, hne, hlook]
          · simp [hm, hc, hne, hlook]
        · simp [hc, hlook]

theorem foldl_mergeUserStep_mergedEnabled (U P : MCPConfig) (names : List String)
    (st : MergeState) :
    (names.foldl (mergeUserStep U P) st).mergedEnabled =
      names.foldl (fun a n =>
        if !((objKeys P.disabled).contains n) then
          objInsert a n (if (objKeys P.enabled).contains n
            then (objLookup P.enabled n).getD { command := "" }
            else (objLookup U.enabled n).getD { command := "" })
        else a) st.mergedEnabled := by
  induction names generalizing st with
  | nil => rfl
  | cons x xs ih =>
      simp only [List.foldl_cons]
      rw [ih]
      congr 1
      unfold mergeUserStep
      by_cases hd : x ∈ objKeys P.disabled
      · simp [hd]
      · by_cases he : x ∈ objKeys P.enabled
        · simp [hd, he]
        · simp [hd, he]

theorem foldl_mergeUserStep_inherited (U P : MCPConfig) (names : List String)
    (st : MergeState) :
    (names.foldl (mergeUserStep U P) st).inherited =
      st.inherited ++ names.filter (fun n =>
        !((objKeys P.disabled).contains n) && !((objKeys P.enabled).contains n)) := by
  induction names generalizing st with
  | nil => simp
  | cons x xs ih =>
      simp only [List.foldl_cons, List.filter_cons]
      rw [ih]
      unfold mergeUserStep
      by_cases hd : x ∈ objKeys P.disabled
      · simp [hd]
      · by_cases he : x ∈ objKeys P.enabled
        · simp [hd, he]
        · simp [hd, he]

theorem foldl_mergeUserStep_overridden (U P : MCPConfig) (names : List String)
    (st : MergeState) :
    (names.foldl (mergeUserStep U P) st).overridden =
      st.overridden ++ names.filter (fun n =>
        !((objKeys P.disabled).contains n) && (objKeys P.enabled).contains n) := by
  induction names generalizing st with
  | nil => simp
  | cons x xs ih =>
      simp only [List.foldl_cons, List.filter_cons]
      rw [ih]
      unfold mergeUserStep
      by_cases hd : x ∈ objKeys P.disabled
      · simp [hd]
      · by_cases he : x ∈ objKeys P.enabled
        · simp [hd, he]
        · simp [hd, he]

theorem foldl_mergeUserStep_additions (U P : MCPConfig) (names : List String)
    (st : MergeState) :
    (names.foldl (mergeUserStep U P) st).additions = st.additions := by
  induction names generalizing st with
  | nil => rfl
  | cons x xs ih =>
      simp only [List.foldl_cons]
      rw [ih]
      unfold mergeUserStep
      by_cases hd : x ∈ objKeys P.disabled
      · simp [hd]
      · by_cases he : x ∈ objKeys P.enabled
        · simp [hd, he]
        · simp [hd, he]

theorem foldl_mergeProjectStep_mergedEnabled (U P : MCPConfig) (names : List String)
    (st : MergeState) :
    (names.foldl (mergeProjectStep U P) st).mergedEnabled =
      names.foldl (fun a n =>
        if !((objKeys U.enabled).contains n) then
          objInsert a n ((objLookup P.enabled n).getD { command := "" })
        else a) st.mergedEnabled := by
  induction names generalizing st with
  | nil => rfl
  | cons x xs ih =>
      simp only [List.foldl_cons]
      rw [ih]
      congr 1
      unfold mergeProjectStep
      by_cases hu : x ∈ objKeys U.enabled
      · simp [hu]
      · simp [hu]

theorem foldl_mergeProjectStep_additions (U P : MCPConfig) (names : List String)
    (st : MergeState) :
    (names.foldl (mergeProjectStep U P) st).additions =
      st.additions ++ names.filter (fun n => !((objKeys U.enabled).contains n)) := by
  induction names generalizing st with
  | nil => simp
  | cons x xs ih =>
      simp only [List.foldl_cons, List.filter_cons]
      rw [ih]
      unfold mergeProjectStep
      by_cases hu : x ∈ objKeys U.enabled
      · simp [hu]
      · simp [hu]

theorem foldl_mergeProjectStep_inherited (U P : MCPConfig) (names : List String)
    (st : MergeState) :
    (names.foldl (mergeProjectStep U P) st).inherited = st.inherited := by
  induction names generalizing st with
  | nil => rfl
  | cons x xs ih =>
      simp only [List.foldl_cons]
      rw [ih]
      unfold mergeProjectStep
      by_cases hu : x ∈ objKeys U.enabled
      · simp [hu]
      · simp [hu]

theorem foldl_mergeProjectStep_overridden (U P : MCPConfig) (names : List String)
    (st : MergeState) :
    (names.foldl (mergeProjectStep U P) st).overridden = st.overridden := by
  induction names generalizing st with
  | nil => rfl
  | cons x xs ih =>
      simp only [List.foldl_cons]
      rw [ih]
      unfold mergeProjectStep
      by_cases hu : x ∈ objKeys U.enabled
      · simp [hu]
      · simp [hu]

theorem mergeDisabledStep_eq_objInsert (U P : MCPConfig)
    (acc : List (String × MCPServer)) (n : String) :
    mergeDisabledStep U P acc n =
      objInsert acc n
        (if (objLookup P.enabled n).isSome then (objLookup P.enabled n).getD { command := "" }
         else if (objLookup U.enabled n).isSome then (objLookup U.enabled n).getD { command := "" }
         else { command := "" }) := by
  unfold mergeDisabledStep
  by_cases hp : (objLookup P.enabled n).isSome
  · simp [hp]
  · by_cases hu : (objLookup U.enabled n).isSome
    · simp [hp, hu]
    · simp [hp, hu]

theorem objLookup_foldl_insert (v : String → MCPServer) (names : List String)
    (acc : List (String × MCPServer)) (k : String) :
    objLookup (names.foldl (fun a n => objInsert a n (v n)) acc) k =
      if names.contains k then some (v k) else objLookup acc k := by
  have h := objLookup_foldl_cond_insert (fun _ => true) v names acc k
  simpa using h

theorem getMergedConfig_enabled_lookup (U P : MCPConfig) (k : String) :
    objLookup (getMergedConfig U (some P)).enabled k =
      if objMem P.enabled k && !(objMem U.enabled k) then
        some ((objLookup P.enabled k).getD { command := "" })
      else if objMem U.enabled k && !(objMem P.disabled k) then
        some (if objMem P.enabled k then (objLookup P.enabled k).getD { command := "" }
              else (objLookup U.enabled k).getD { command := "" })
      else none := by
  simp only [getMergedConfig]
  rw [foldl_mergeProjectStep_mergedEnabled, foldl_mergeUserStep_mergedEnabled]
  rw [objLookup_foldl_cond_insert (fun n => !((objKeys U.enabled).contains n))
    (fun n => (objLookup P.enabled n).getD { command := "" })]
  rw [objLookup_foldl_cond_insert (fun n => !((objKeys P.disabled).contains n))
    (fun n => if (objKeys P.enabled).contains n
      then (objLookup P.enabled n).getD { command := "" }
      else (objLookup U.enabled n).getD { command := "" })]
  simp only [contains_objKeys_eq, objLookup]

theorem getMergedConfig_disabled_lookup (U P : MCPConfig) (k : String) :
    objLookup (getMergedConfig U (some P)).disabled k =
      if objMem P.disabled k then
        some (if (objLookup P.enabled k).isSome then (objLookup P.enabled k).getD { command := "" }
              else if (objLookup U.enabled k).isSome then (objLookup U.enabled k).getD { command := "" }
              else { command := "" })
      else objLookup U.disabled k := by
  simp only [getMergedConfig]
  have hstep : (mergeDisabledStep U P) = (fun a n => objInsert a n
      (if (objLookup P.enabled n).isSome then (objLookup P.enabled n).getD { command := "" }
       else if (objLookup U.enabled n).isSome then (objLookup U.enabled n).getD { command := "" }
       else { command := "" })) := by
    funext a n
    exact mergeDisabledStep_eq_objInsert U P a n
  rw [hstep]
  rw [objLookup_foldl_insert (fun n =>
      (if (objLookup P.enabled n).isSome then (objLookup P.enabled n).getD { command := "" }
       else if (objLookup U.enabled n).isSome then (objLookup U.enabled n).getD { command := "" }
       else { command := "" }))]
  simp only [contains_objKeys_eq]

theorem getMergedConfig_inherited (U P : MCPConfig) :
    (getMergedConfig U (some P)).inheritance.inherited =
      (objKeys U.enabled).filter (fun n =>
        !((objKeys P.disabled).contains n) && !((objKeys P.enabled).contains n)) := by
  simp only [getMergedConfig]
  rw [foldl_mergeProjectStep_inherited, foldl_mergeUserStep_inherited]
  simp

theorem getMergedConfig_overridden (U P : MCPConfig) :
    (getMergedConfig U (some P)).inheritance.overridden =
      (objKeys U.enabled).filter (fun n =>
        !((objKeys P.disabled).contains n) && (objKeys P.enabled).contains n) := by
  simp only [getMergedConfig]
  rw [foldl_mergeProjectStep_overridden, foldl_mergeUserStep_overridden]
  simp

theorem getMergedConfig_additions (U P : MCPConfig) :
    (getMergedConfig U (some P)).inheritance.additions =
      (objKeys P.enabled).filter (fun n => !((objKeys U.enabled).contains n)) := by
  simp only [getMergedConfig]
  rw [foldl_mergeProjectStep_additions, foldl_mergeUserStep_additions]
  simp

theorem some_getD_of_isSome (o : Option MCPServer) (d : MCPServer)
    (h : o.isSome = true) : some (o.getD d) = o := by
  cases o with
  | none => cases h
  | some r => rfl

theorem objMem_eq_isSome (m : List (String × MCPServer)) (k : String) :
    objMem m k = (objLookup m k).isSome := rfl

/-- C1: for a user snapshot `U` and project snapshot `P`, the merged
enabled mapping of `getMergedConfig` satisfies the four-case analysis:
user-enabled names disabled at project level are excluded entirely;
user-enabled names also project-enabled (and not project-disabled) carry
the project record and are classified overridden; remaining user-enabled
names carry the user record and are classified inherited; and
project-enabled names not user-enabled carry the project record and are
classified additions. -/
theorem c1_merged_enabled_cases (U P : MCPConfig) (n : String) :
    (objMem U.enabled n = true → objMem P.disabled n = true →
      objMem (getMergedConfig U (some P)).enabled n = false) ∧
    (objMem U.enabled n = true → objMem P.disabled n = false →
        objMem P.enabled n = true →
      objLookup (getMergedConfig U (some P)).enabled n = objLookup P.enabled n ∧
      n ∈ (getMergedConfig U (some P)).inheritance.overridden) ∧
    (objMem U.enabled n = true → objMem P.disabled n = false →
        objMem P.enabled n = false →
      objLookup (getMergedConfig U (some P)).enabled n = objLookup U.enabled n ∧
      n ∈ (getMergedConfig U (some P)).inheritance.inherited) ∧
    (objMem P.enabled n = true → objMem U.enabled n = false →
      objLookup (getMergedConfig U (some P)).enabled n = objLookup P.enabled n ∧
      n ∈ (getMergedConfig U (some P)).inheritance.additions) := by
  refine ⟨?_, ?_, ?_, ?_⟩
  · intro hu hd
    rw [objMem_eq_isSome, getMergedConfig_enabled_lookup]
    simp [hu, hd]
  · intro hu hd hp
    constructor
    · rw [getMergedConfig_enabled_lookup]
      simp only [hu, hd, hp, Bool.not_true, Bool.and_false, Bool.false_and,
        Bool.not_false, Bool.and_true, Bool.true_and, if_true, if_false,
        Bool.and_self, ite_true, ite_false]
      exact some_getD_of_isSome _ _ hp
    · rw [getMergedConfig_overridden, List.mem_filter]
      refine ⟨(mem_objKeys_iff _ _).mpr hu, ?_⟩
      simp [contains_objKeys_eq, mem_objKeys_iff, hd, hp]
  · intro hu hd hp
    constructor
    · rw [getMergedConfig_enabled_lookup]
      simp only [hu, hd, hp, Bool.not_true, Bool.and_false, Bool.false_and,
        Bool.not_false, Bool.and_true, Bool.true_and, if_true, if_false,
        Bool.and_self, ite_true, ite_false]
      exact some_getD_of_isSome _ _ hu
    · rw [getMergedConfig_inherited, List.mem_filter]
      refine ⟨(mem_objKeys_iff _ _).mpr hu, ?_⟩
      simp [contains_objKeys_eq, mem_objKeys_iff, hd, hp]
  · intro hp hu
    constructor
    · rw [getMergedConfig_enabled_lookup]
      simp only [hu, hp, Bool.not_true, Bool.and_false, Bool.false_and,
        Bool.not_false, Bool.and_true, Bool.true_and, if_true, if_false,
        Bool.and_self, ite_true, ite_false]
      exact some_getD_of_isSome _ _ hp
    · rw [getMergedConfig_additions, List.mem_filter]
      refine ⟨(mem_objKeys_iff _ _).mpr hp, ?_⟩
      simp [contains_objKeys_eq, mem_objKeys_iff, hu]

/-- Concrete user snapshot for the C1 witness. -/
def c1SampleUser : MCPConfig :=
  { enabled := [("gone", { command := "u-gone" }), ("over", { command := "u-over" }),
                ("inh", { command := "u-inh" })],
    disabled := [] }

/-- Concrete project snapshot for the C1 witness. -/
def c1SampleProject : MCPConfig :=
  { enabled := [("over", { command := "p-over" }), ("add", { command := "p-add" })],
    disabled := [("gone", { command := "" })] }

/-- Witness for C1: one concrete name per case of the merge. -/
theorem c1_merged_enabled_cases_witness :
    objMem (getMergedConfig c1SampleUser (some c1SampleProject)).enabled "gone" = false ∧
    (objLookup (getMergedConfig c1SampleUser (some c1SampleProject)).enabled "over" =
        objLookup c1SampleProject.enabled "over" ∧
      "over" ∈ (getMergedConfig c1SampleUser (some c1SampleProject)).inheritance.overridden) ∧
    (objLookup (getMergedConfig c1SampleUser (some c1SampleProject)).enabled "inh" =
        objLookup c1SampleUser.enabled "inh" ∧
      "inh" ∈ (getMergedConfig c1SampleUser (some c1SampleProject)).inheritance.inherited) ∧
    (objLookup (getMergedConfig c1SampleUser (some c1SampleProject)).enabled "add" =
        objLookup c1SampleProject.enabled "add" ∧
      "add" ∈ (getMergedConfig c1SampleUser (some c1SampleProject)).inheritance.additions) :=
  ⟨(c1_merged_enabled_cases c1SampleUser c1SampleProject "gone").1 (by decide) (by decide),
   (c1_merged_enabled_cases c1SampleUser c1SampleProject "over").2.1
     (by decide) (by decide) (by decide),
   (c1_merged_enabled_cases c1SampleUser c1SampleProject "inh").2.2.1
     (by decide) (by decide) (by decide),
   (c1_merged_enabled_cases c1SampleUser c1SampleProject "add").2.2.2
     (by decide) (by decide)⟩

/-- The merge invariant of a ScopedMCPConfig: the three provenance lists
cover exactly the keys of the enabled mapping and are pairwise disjoint. -/
def InheritancePartition (cfg : ScopedMCPConfig) : Prop :=
  (∀ n, (n ∈ cfg.inheritance.inherited ∨ n ∈ cfg.inheritance.overridden ∨
         n ∈ cfg.inheritance.additions) ↔ objMem cfg.enabled n = true) ∧
  (∀ n, ¬ (n ∈ cfg.inheritance.inherited ∧ n ∈ cfg.inheritance.overridden)) ∧
  (∀ n, ¬ (n ∈ cfg.inheritance.inherited ∧ n ∈ cfg.inheritance.additions)) ∧
  (∀ n, ¬ (n ∈ cfg.inheritance.overridden ∧ n ∈ cfg.inheritance.additions))

/-- C2: for every user snapshot and optional project snapshot, the three
provenance sets of `getMergedConfig` partition the merged enabled key set
(union equal, pairwise disjoint); and in the no-project branch the
inheritance is exactly all user-enabled names as inherited with the other
two lists empty. -/
theorem c2_inheritance_partition (U : MCPConfig) (projectConfig? : Option MCPConfig) :
    InheritancePartition (getMergedConfig U projectConfig?) ∧
    (getMergedConfig U none).inheritance =
      { inherited := objKeys U.enabled, overridden := [], additions := [] } := by
  constructor
  · cases projectConfig? with
    | none =>
        refine ⟨?_, ?_, ?_, ?_⟩
        · intro n
          simp only [getMergedConfig]
          simpa using mem_objKeys_iff U.enabled n
        · intro n hn
          simpa [getMergedConfig] using hn.2
        · intro n hn
          simpa [getMergedConfig] using hn.2
        · intro n hn
          simpa [getMergedConfig] using hn.1
    | some P =>
        refine ⟨?_, ?_, ?_, ?_⟩
        · intro n
          rw [objMem_eq_isSome, getMergedConfig_enabled_lookup,
            getMergedConfig_inherited, getMergedConfig_overridden,
            getMergedConfig_additions]
          simp only [List.mem_filter, mem_objKeys_iff, contains_objKeys_eq]
          cases hue : objMem U.enabled n <;> cases hpd : objMem P.disabled n <;>
            cases hpe : objMem P.enabled n <;>
            simp [hue, hpd, hpe]
        · intro n hn
          rcases hn with ⟨h1, h2⟩
          rw [getMergedConfig_inherited, List.mem_filter] at h1
          rw [getMergedConfig_overridden, List.mem_filter] at h2
          simp only [contains_objKeys_eq, Bool.and_eq_true, Bool.not_eq_true'] at h1 h2
          rw [h1.2.2] at h2
          exact absurd h2.2.2 (by simp)
        · intro n hn
          rcases hn with ⟨h1, h2⟩
          rw [getMergedConfig_inherited, List.mem_filter] at h1
          rw [getMergedConfig_additions, List.mem_filter] at h2
          simp only [contains_objKeys_eq, Bool.and_eq_true, Bool.not_eq_true',
            mem_objKeys_iff] at h1 h2
          rw [h1.1] at h2
          exact absurd h2.2 (by simp)
        · intro n hn
          rcases hn with ⟨h1, h2⟩
          rw [getMergedConfig_overridden, List.mem_filter] at h1
          rw [getMergedConfig_additions, List.mem_filter] at h2
          simp only [contains_objKeys_eq, Bool.and_eq_true, Bool.not_eq_true',
            mem_objKeys_iff] at h1 h2
          rw [h1.1] at h2
          exact absurd h2.2 (by simp)
  · rfl

/-- C8: the effective disabled mapping of the merge equals `U.disabled`
updated with one entry per project-disabled name whose record comes from
`P.enabled` when present there, else from `U.enabled` when present there,
else is the empty-command placeholder; names not project-disabled keep
their `U.disabled` binding, and a project-disabled name present at
neither level degrades to the placeholder rather than erroring. -/
theorem c8_merged_disabled_cases (U P : MCPConfig) (n : String) :
    (objMem P.disabled n = false →
      objLookup (getMergedConfig U (some P)).disabled n = objLookup U.disabled n) ∧
    (objMem P.disabled n = true → objMem P.enabled n = true →
      objLookup (getMergedConfig U (some P)).disabled n = objLookup P.enabled n) ∧
    (objMem P.disabled n = true → objMem P.enabled n = false →
        objMem U.enabled n = true →
      objLookup (getMergedConfig U (some P)).disabled n = objLookup U.enabled n) ∧
    (objMem P.disabled n = true → objMem P.enabled n = false →
        objMem U.enabled n = false →
      objLookup (getMergedConfig U (some P)).disabled n = some { command := "" }) := by
  refine ⟨?_, ?_, ?_, ?_⟩
  · intro hd
    rw [getMergedConfig_disabled_lookup]
    simp [hd]
  · intro hd hp
    rw [getMergedConfig_disabled_lookup]
    rw [objMem_eq_isSome] at hp
    simp only [hd, hp, if_true, ite_true]
    exact some_getD_of_isSome _ _ hp
  · intro hd hp hu
    rw [getMergedConfig_disabled_lookup]
    rw [objMem_eq_isSome] at hp hu
    simp only [hd, hp, hu, if_true, ite_true, Bool.false_eq_true, if_false, ite_false]
    exact some_getD_of_isSome _ _ hu
  · intro hd hp hu
    rw [getMergedConfig_disabled_lookup]
    rw [objMem_eq_isSome] at hp hu
    simp only [hd, hp, hu, if_true, ite_true, Bool.false_eq_true, if_false, ite_false]

/-- Concrete user snapshot for the C8 witness. -/
def c8SampleUser : MCPConfig :=
  { enabled := [("ue", { command := "user-cmd" })],
    disabled := [("ud", { command := "user-disabled-cmd" })] }

/-- Concrete project snapshot for the C8 witness: three project-disabled
names whose records live at project level, user level, and nowhere. -/
def c8SampleProject : MCPConfig :=
  { enabled := [("pe", { command := "proj-cmd" })],
    disabled := [("pe", { command := "" }), ("ue", { command := "" }),
                 ("ghost", { command := "" })] }

/-- Witness for C8: one concrete name per case. -/
theorem c8_merged_disabled_cases_witness :
    objLookup (getMergedConfig c8SampleUser (some c8SampleProject)).disabled "ud" =
      objLookup c8SampleUser.disabled "ud" ∧
    objLookup (getMergedConfig c8SampleUser (some c8SampleProject)).disabled "pe" =
      objLookup c8SampleProject.enabled "pe" ∧
    objLookup (getMergedConfig c8SampleUser (some c8SampleProject)).disabled "ue" =
      objLookup c8SampleUser.enabled "ue" ∧
    objLookup (getMergedConfig c8SampleUser (some c8SampleProject)).disabled "ghost" =
      some { command := "" } :=
  ⟨(c8_merged_disabled_cases c8SampleUser c8SampleProject "ud").1 (by decide),
   (c8_merged_disabled_cases c8SampleUser c8SampleProject "pe").2.1 (by decide) (by decide),
   (c8_merged_disabled_cases c8SampleUser c8SampleProject "ue").2.2.1
     (by decide) (by decide) (by decide),
   (c8_merged_disabled_cases c8SampleUser c8SampleProject "ghost").2.2.2
     (by decide) (by decide) (by decide)⟩

/-- Embeds the source interface `ClaudeProjectConfig`
(src/unnamed/part_003): the on-disk project entry, a server map plus a
list of disabled names; an absent `disabledMcpServers` is the empty
list. -/
structure ClaudeProjectConfig where
  mcpServers : List (String × MCPServer)
  disabledMcpServers : List String
  deriving Repr, DecidableEq

/-- One iteration of the conversion loop in
`ClaudeAdapter.loadProjectConfig`: state is the (enabled, disabled) pair;
a disabled name present in enabled is moved there, otherwise the
placeholder is recorded. -/
def projectDisabledStep
    (st : List (String × MCPServer) × List (String × MCPServer))
    (name : String) :
    List (String × MCPServer) × List (String × MCPServer) :=
  if (objLookup st.1 name).isSome then
    (objErase st.1 name,
     objInsert st.2 name ((objLookup st.1 name).getD { command := "" }))
  else
    (st.1, objInsert st.2 name { command := "" })

/-- Embeds the pure conversion core of `ClaudeAdapter.loadProjectConfig`
(src/unnamed/part_003, lines 120–174): the project entry's
`disabledMcpServers` names are split out of its `mcpServers` map. -/
def loadProjectConfig (projectConfig : ClaudeProjectConfig) : MCPConfig :=
  let st := projectConfig.disabledMcpServers.foldl projectDisabledStep
    (projectConfig.mcpServers, [])
  { enabled := st.1, disabled := st.2 }

theorem projLoop_enabled_none_pres (names : List String)
    (st : List (String × MCPServer) × List (String × MCPServer)) (k : String)
    (h : objLookup st.1 k = none) :
    objLookup (names.foldl projectDisabledStep st).1 k = none := by
  induction names generalizing st with
  | nil => exact h
  | cons x xs ih =>
      simp only [List.foldl_cons]
      apply ih
      unfold projectDisabledStep
      by_cases hs : (objLookup st.1 x).isSome
      · simp only [hs, if_true, ite_true]
        by_cases hkx : k = x
        · subst hkx; exact objLookup_objErase_self _ _
        · rw [objLookup_objErase_ne _ _ _ hkx]; exact h
      · simp only [hs, Bool.false_eq_true, if_false, ite_false]
        exact h

theorem projLoop_enabled_none_of_mem (names : List String)
    (st : List (String × MCPServer) × List (String × MCPServer)) (k : String)
    (h : k ∈ names) :
    objLookup (names.foldl projectDisabledStep st).1 k = none := by
  induction names generalizing st with
  | nil => cases h
  | cons x xs ih =>
      simp only [List.foldl_cons]
      by_cases hk : k ∈ xs
      · exact ih _ hk
      · have hkx : k = x := by
          rcases List.mem_cons.mp h with h1 | h2
          · exact h1
          · exact absurd h2 hk
        subst hkx
        apply projLoop_enabled_none_pres
        unfold projectDisabledStep
        by_cases hs : (objLookup st.1 k).isSome
        · simp only [hs, if_true, ite_true]
          exact objLookup_objErase_self _ _
        · simp only [hs, Bool.false_eq_true, if_false, ite_false]
          cases hl : objLookup st.1 k with
          | none => rfl
          | some r => rw [hl] at hs; simp at hs

theorem projLoop_disabled_some_pres (names : List String)
    (st : List (String × MCPServer) × List (String × MCPServer)) (k : String)
    (h : (objLookup st.2 k).isSome = true) :
    (objLookup (names.foldl projectDisabledStep st).2 k).isSome = true := by
  induction names generalizing st with
  | nil => exact h
  | cons x xs ih =>
      simp only [List.foldl_cons]
      apply ih
      unfold projectDisabledStep
      by_cases hkx : k = x
      · subst hkx
        by_cases hs : (objLookup st.1 k).isSome
        · simp [hs, objLookup_objInsert_self]
        · simp [hs, objLookup_objInsert_self]
      · by_cases hs : (objLookup st.1 x).isSome
        · simp only [hs, if_true, ite_true]
          rw [objLookup_objInsert_ne _ _ _ _ hkx]
          exact h
        · simp only [hs, Bool.false_eq_true, if_false, ite_false]
          rw [objLookup_objInsert_ne _ _ _ _ hkx]
          exact h

theorem projLoop_disabled_of_mem (names : List String)
    (st : List (String × MCPServer) × List (String × MCPServer)) (k : String)
    (h : k ∈ names) :
    (objLookup (names.foldl projectDisabledStep st).2 k).isSome = true := by
  induction names generalizing st with
  | nil => cases h
  | cons x xs ih =>
      simp only [List.foldl_cons]
      by_cases hk : k ∈ xs
      · exact ih _ hk
      · have hkx : k = x := by
          rcases List.mem_cons.mp h with h1 | h2
          · exact h1
          · exact absurd h2 hk
        subst hkx
        apply projLoop_disabled_some_pres
        unfold projectDisabledStep
        by_cases hs : (objLookup st.1 k).isSome
        · simp [hs, objLookup_objInsert_self]
        · simp [hs, objLookup_objInsert_self]

/-- C10: when a project entry lists a server both in its `mcpServers` map
and in its `disabledMcpServers` array and the name is absent from the
user-level enabled map, the merged disabled mapping binds the name to the
empty-command placeholder: `loadProjectConfig` moves the real project
record into the project snapshot's disabled map, and `getMergedConfig`
consults only `projectConfig.enabled` and `userConfig.enabled`, so the
project-level record is silently discarded. -/
theorem c10_project_record_discarded (projectConfig : ClaudeProjectConfig)
    (U : MCPConfig) (n : String)
    (hrec : objMem projectConfig.mcpServers n = true)
    (hdis : n ∈ projectConfig.disabledMcpServers)
    (hue : objMem U.enabled n = false) :
    objLookup (getMergedConfig U (some (loadProjectConfig projectConfig))).disabled n =
      some { command := "" } := by
  have hen : objLookup (loadProjectConfig projectConfig).enabled n = none :=
    projLoop_enabled_none_of_mem _ _ _ hdis
  have hdn : objMem (loadProjectConfig projectConfig).disabled n = true :=
    projLoop_disabled_of_mem _ _ _ hdis
  rw [getMergedConfig_disabled_lookup]
  rw [objMem_eq_isSome] at hue
  simp only [hdn, hen, hue, Option.isSome_none, Bool.false_eq_true, if_false,
    ite_false, if_true, ite_true]

/-- Concrete project entry for the C10 witness: server `dup` has a real
record at project level and is also listed as project-disabled. -/
def c10SampleProjectEntry : ClaudeProjectConfig :=
  { mcpServers := [("dup", { command := "real-project-cmd", args := ["--flag"] })],
    disabledMcpServers := ["dup"] }

/-- Concrete user snapshot for the C10 witness: `dup` is not enabled at
user level. -/
def c10SampleUser : MCPConfig :=
  { enabled := [("other", { command := "other-cmd" })], disabled := [] }

/-- Witness for C10 at the concrete inputs. -/
theorem c10_project_record_discarded_witness :
    objLookup (getMergedConfig c10SampleUser
        (some (loadProjectConfig c10SampleProjectEntry))).disabled "dup" =
      some { command := "" } :=
  c10_project_record_discarded c10SampleProjectEntry c10SampleUser "dup"
    (by decide) (by decide) (by decide)

/-- Abstract view of one on-disk JSON config file as the detect methods
observe it: whether the file exists, whether its contents parse as JSON,
and its top-level keys when they do. -/
structure ConfigFileView where
  fileExists : Bool
  parses : Bool
  topLevelKeys : List String
  deriving Repr, DecidableEq

/-- Embeds `ClaudeAdapter.detect` (src/unnamed/part_003, lines 31–33):
`fs.existsSync(CONFIG_PATH)` and nothing else. -/
def claudeDetect (f : ConfigFileView) : Bool :=
  f.fileExists

/-- Embeds `ClineAdapter.detect` (src/src/adapters/base.ts, lines
206–218): false when the settings file is missing; on successful parse,
true iff either Cline server key is present; any parse error is caught
and yields false. -/
def clineDetect (f : ConfigFileView) : Bool :=
  if !f.fileExists then false
  else if f.parses then
    (f.topLevelKeys.contains "cline.mcpServers"
      || f.topLevelKeys.contains "cline._disabled_mcpServers")
  else false

/-- Embeds `CursorAdapter.detect` (src/src/adapters/cursor.ts, lines
44–56): false when missing; on successful parse, true iff the
`mcpServers` key is present; any parse error yields false. -/
def cursorDetect (f : ConfigFileView) : Bool :=
  if !f.fileExists then false
  else if f.parses then f.topLevelKeys.contains "mcpServers"
  else false

/-- Counterexample to C6: a Claude config file that exists but does not
parse (so in particular contains no recognized server-list key) still
makes `ClaudeAdapter.detect` return true, contradicting both the
false-on-parse-error clause and the true-only-with-key clause. -/
theorem c6_counterexample :
    claudeDetect { fileExists := true, parses := false, topLevelKeys := [] } = true ∧
    ({ fileExists := true, parses := false, topLevelKeys := [] } :
      ConfigFileView).parses = false ∧
    "mcpServers" ∉ ({ fileExists := true, parses := false, topLevelKeys := [] } :
      ConfigFileView).topLevelKeys := by
  refine ⟨rfl, rfl, ?_⟩
  simp

/-- C6 amended: no detect throws (all are total); Cline's and Cursor's
detect return false on any missing file or parse error and return true
exactly when the file exists, parses, and contains the tool's recognized
server-list key; Claude's detect instead returns true exactly when its
config file exists, with no content check at all. -/
theorem c6_detect_amended (f : ConfigFileView) :
    (clineDetect f = true ↔ (f.fileExists = true ∧ f.parses = true ∧
      ("cline.mcpServers" ∈ f.topLevelKeys ∨
       "cline._disabled_mcpServers" ∈ f.topLevelKeys))) ∧
    (cursorDetect f = true ↔ (f.fileExists = true ∧ f.parses = true ∧
      "mcpServers" ∈ f.topLevelKeys)) ∧
    (claudeDetect f = true ↔ f.fileExists = true) := by
  obtain ⟨fe, pa, keys⟩ := f
  cases fe <;> cases pa <;>
    simp [clineDetect, cursorDetect, claudeDetect]

/-- Embeds the persisted `Profile` interface (src/unnamed/part_010): the
current field names `enabled`/`disabled`, the legacy field names
`mcpServers`/`_disabled_mcpServers`, the optional recorded tool id, and
the creation timestamp.  An absent JSON field is `none`. -/
structure Profile where
  name : String
  tool : Option String
  enabled : Option (List (String × MCPServer))
  disabled : Option (List (String × MCPServer))
  mcpServers : Option (List (String × MCPServer))
  _disabled_mcpServers : Option (List (String × MCPServer))
  created : String
  deriving Repr, DecidableEq

/-- Association-list lookup for the profile store (profile name → parsed
profile file), the embedding of the `fs.existsSync(profilePath)` check
plus `JSON.parse(fs.readFileSync(...))`. -/
def profLookup (store : List (String × Profile)) (k : String) : Option Profile :=
  match store with
  | [] => none
  | (k', v) :: rest => if k' = k then some v else profLookup rest k

/-- Result of a successful `loadProfile`: the config written back to the
adapter, and whether the tool-mismatch warning was printed. -/
structure LoadProfileOutcome where
  config : MCPConfig
  warned : Bool
  deriving Repr, DecidableEq

/-- Embeds `loadProfile` (src/unnamed/part_010, lines 323–354) with the
profile store, the active adapter's id and the adapter's current live
config passed explicitly: missing profile is the error path; otherwise a
tool-id mismatch (for a nonempty recorded tool id) only sets the warning,
and the live config's two mappings are replaced by the profile's, falling
back to the legacy field names when the current ones are absent. -/
def loadProfile (store : List (String × Profile)) (adapterId : String)
    (liveConfig : MCPConfig) (name : String) :
    Except String LoadProfileOutcome :=
  match profLookup store name with
  | none => .error ("Profile \"" ++ name ++ "\" does not exist")
  | some profile =>
      let warned := match profile.tool with
        | some t => if t = "" then false else t != adapterId
        | none => false
      .ok { config :=
              { liveConfig with
                  enabled :=
                    ((profile.enabled).orElse (fun _ => profile.mcpServers)).getD [],
                  disabled :=
                    ((profile.disabled).orElse
                      (fun _ => profile._disabled_mcpServers)).getD [] },
            warned := warned }

/-- C9: `loadProfile` errors exactly when no profile of the requested
name exists; an existing profile's two mappings are read from the current
field names first with the legacy names as fallback; and a recorded tool
id differing from the active adapter's id only sets the warning — the
load still succeeds and applies the profile's mappings to the live
config. -/
theorem c9_loadProfile_contract (store : List (String × Profile))
    (adapterId : String) (liveConfig : MCPConfig) (name : String) :
    ((∃ e, loadProfile store adapterId liveConfig name = .error e) ↔
      profLookup store name = none) ∧
    (∀ profile e, profLookup store name = some profile →
      profile.enabled = some e →
      ∃ out, loadProfile store adapterId liveConfig name = .ok out ∧
        out.config.enabled = e) ∧
    (∀ profile e, profLookup store name = some profile →
      profile.enabled = none → profile.mcpServers = some e →
      ∃ out, loadProfile store adapterId liveConfig name = .ok out ∧
        out.config.enabled = e) ∧
    (∀ profile d, profLookup store name = some profile →
      profile.disabled = some d →
      ∃ out, loadProfile store adapterId liveConfig name = .ok out ∧
        out.config.disabled = d) ∧
    (∀ profile d, profLookup store name = some profile →
      profile.disabled = none → profile._disabled_mcpServers = some d →
      ∃ out, loadProfile store adapterId liveConfig name = .ok out ∧
        out.config.disabled = d) ∧
    (∀ profile t, profLookup store name = some profile →
      profile.tool = some t → t ≠ "" → t ≠ adapterId →
      ∃ out, loadProfile store adapterId liveConfig name = .ok out ∧
        out.warned = true ∧
        out.config.enabled =
          ((profile.enabled).orElse (fun _ => profile.mcpServers)).getD [] ∧
        out.config.disabled =
          ((profile.disabled).orElse
            (fun _ => profile._disabled_mcpServers)).getD []) := by
  refine ⟨⟨?_, ?_⟩, ?_, ?_, ?_, ?_, ?_⟩
  · rintro ⟨e, he⟩
    cases hl : profLookup store name with
    | none => rfl
    | some p => rw [loadProfile, hl] at he; cases he
  · intro hl
    rw [loadProfile, hl]
    exact ⟨_, rfl⟩
  · intro profile e hl he
    rw [loadProfile, hl]
    exact ⟨_, rfl, by simp [he]⟩
  · intro profile e hl he hm
    rw [loadProfile, hl]
    exact ⟨_, rfl, by simp [he, hm, Option.orElse]⟩
  · intro profile d hl hd
    rw [loadProfile, hl]
    exact ⟨_, rfl, by simp [hd]⟩
  · intro profile d hl hd hm
    rw [loadProfile, hl]
    exact ⟨_, rfl, by simp [hd, hm, Option.orElse]⟩
  · intro profile t hl ht hne hmis
    rw [loadProfile, hl]
    refine ⟨_, rfl, ?_, rfl, rfl⟩
    simp only [ht]
    rw [if_neg hne]
    simp [hmis]

/-- Current-format profile for the C9 witness. -/
def c9ProfileDev : Profile :=
  { name := "dev", tool := some "claude",
    enabled := some [("a", { command := "cmd-a" })],
    disabled := some [("c", { command := "cmd-c" })],
    mcpServers := none, _disabled_mcpServers := none,
    created := "2024-01-01T00:00:00.000Z" }

/-- Legacy-format profile for the C9 witness, recorded for a different
tool. -/
def c9ProfileLegacy : Profile :=
  { name := "legacy", tool := some "cline",
    enabled := none, disabled := none,
    mcpServers := some [("x", { command := "cmd-x" })],
    _disabled_mcpServers := some [("y", { command := "cmd-y" })],
    created := "2023-01-01T00:00:00.000Z" }

/-- Profile store for the C9 witness: one current-format profile and one
legacy-format profile recorded for a different tool. -/
def c9SampleStore : List (String × Profile) :=
  [("dev", c9ProfileDev), ("legacy", c9ProfileLegacy)]

/-- Live config for the C9 witness. -/
def c9SampleLive : MCPConfig :=
  { enabled := [("z", { command := "cmd-z" })], disabled := [] }

/-- Witness for C9: missing profile errors; current and legacy field
names are both accepted; a tool mismatch loads anyway with the warning. -/
theorem c9_loadProfile_contract_witness :
    (∃ e, loadProfile c9SampleStore "claude" c9SampleLive "nope" = .error e) ∧
    (∃ out, loadProfile c9SampleStore "claude" c9SampleLive "dev" = .ok out ∧
      out.config.enabled = [("a", { command := "cmd-a" })]) ∧
    (∃ out, loadProfile c9SampleStore "claude" c9SampleLive "legacy" = .ok out ∧
      out.config.enabled = [("x", { command := "cmd-x" })]) ∧
    (∃ out, loadProfile c9SampleStore "claude" c9SampleLive "dev" = .ok out ∧
      out.config.disabled = [("c", { command := "cmd-c" })]) ∧
    (∃ out, loadProfile c9SampleStore "claude" c9SampleLive "legacy" = .ok out ∧
      out.config.disabled = [("y", { command := "cmd-y" })]) ∧
    (∃ out, loadProfile c9SampleStore "claude" c9SampleLive "legacy" = .ok out ∧
      out.warned = true ∧
      out.config.enabled = ((c9ProfileLegacy.enabled).orElse
        (fun _ => c9ProfileLegacy.mcpServers)).getD [] ∧
      out.config.disabled = ((c9ProfileLegacy.disabled).orElse
        (fun _ => c9ProfileLegacy._disabled_mcpServers)).getD []) :=
  ⟨(c9_loadProfile_contract c9SampleStore "claude" c9SampleLive "nope").1.mpr (by decide),
   (c9_loadProfile_contract c9SampleStore "claude" c9SampleLive "dev").2.1
     c9ProfileDev _ (by decide) (by decide),
   (c9_loadProfile_contract c9SampleStore "claude" c9SampleLive "legacy").2.2.1
     c9ProfileLegacy _ (by decide) (by decide) (by decide),
   (c9_loadProfile_contract c9SampleStore "claude" c9SampleLive "dev").2.2.2.1
     c9ProfileDev _ (by decide) (by decide),
   (c9_loadProfile_contract c9SampleStore "claude" c9SampleLive "legacy").2.2.2.2.1
     c9ProfileLegacy _ (by decide) (by decide) (by decide),
   (c9_loadProfile_contract c9SampleStore "claude" c9SampleLive "legacy").2.2.2.2.2
     c9ProfileLegacy "cline" (by decide) (by decide) (by decide) (by decide)⟩

/-- Generic association-list lookup (used for the backup directory and
other name-indexed file collections). -/
def alistLookup {α : Type} (m : List (String × α)) (k : String) : Option α :=
  match m with
  | [] => none
  | (k', v) :: rest => if k' = k then some v else alistLookup rest k

/-- Generic association-list insert-or-replace (JS object assignment /
overwriting file copy). -/
def alistInsert {α : Type} (m : List (String × α)) (k : String) (v : α) :
    List (String × α) :=
  match m with
  | [] => [(k, v)]
  | (k', v') :: rest =>
      if k' = k then (k, v) :: rest else (k', v') :: alistInsert rest k v

theorem alistLookup_alistInsert_self {α : Type} (m : List (String × α))
    (k : String) (v : α) : alistLookup (alistInsert m k v) k = some v := by
  induction m with
  | nil => simp [alistInsert, alistLookup]
  | cons p rest ih =>
      obtain ⟨k', v'⟩ := p
      by_cases hk : k' = k
      · simp [alistInsert, hk, alistLookup]
      · simp [alistInsert, hk, alistLookup, ih]

theorem alistLookup_alistInsert_ne {α : Type} (m : List (String × α))
    (k k' : String) (v : α) (h : k' ≠ k) :
    alistLookup (alistInsert m k v) k' = alistLookup m k' := by
  have h1 : ¬ k = k' := fun h2 => h h2.symm
  induction m with
  | nil => simp [alistInsert, alistLookup, h1]
  | cons p rest ih =>
      obtain ⟨k₀, v₀⟩ := p
      by_cases hk : k₀ = k
      · have h2 : ¬ k₀ = k' := by rw [hk]; exact h1
        simp [alistInsert, hk, alistLookup, h1, h2]
      · by_cases hk' : k₀ = k'
        · simp [alistInsert, hk, alistLookup, hk', h1, h]
        · simp [alistInsert, hk, alistLookup, hk', ih]

/-- Content of one Cursor JSON file: the `mcpServers` map plus whatever
other top-level fields are present (which a save must preserve). -/
structure CursorConfigFile where
  mcpServers : List (String × MCPServer)
  extraFields : List (String × String)
  deriving Repr, DecidableEq

/-- The slice of the file system a `CursorAdapter` touches: the main
config file, the separate disabled file, and the backup directory. -/
structure CursorFS where
  mainFile : Option CursorConfigFile
  disabledFile : Option CursorConfigFile
  backups : List (String × CursorConfigFile)
  deriving Repr, DecidableEq

/-- Outcome of a `CursorAdapter.saveConfig` call: the resulting file
system and the raised error message, if any. -/
structure CursorSaveResult where
  fs : CursorFS
  error : Option String
  deriving Repr, DecidableEq

/-- Which write (if any) fails inside the try block of
`CursorAdapter.saveConfig`. -/
inductive WriteOutcome where
  | allSucceed
  | mainWriteFails (msg : String)
  | disabledWriteFails (msg : String)
  deriving Repr, DecidableEq

/-- Embeds `CursorAdapter.saveConfig` (src/src/adapters/cursor.ts, lines
124–167) together with the `createBackup` it begins with: the formatted
timestamp and the fallible writes' outcome are explicit parameters.  On a
write failure the catch block copies the just-made main backup (and the
disabled backup when it exists) over the live files and re-raises. -/
def cursorSaveConfig (fs : CursorFS) (config : MCPConfig) (timestamp : String)
    (outcome : WriteOutcome) : CursorSaveResult :=
  match fs.mainFile with
  | none => { fs := fs, error := some "Cursor config not found" }
  | some existingConfig =>
      let backupPath := "cursor-" ++ timestamp ++ ".json"
      let disabledBackupPath := "cursor-disabled-" ++ timestamp ++ ".json"
      let backups1 := alistInsert fs.backups backupPath existingConfig
      let backups2 := match fs.disabledFile with
        | some d => alistInsert backups1 disabledBackupPath d
        | none => backups1
      let fs1 : CursorFS := { fs with backups := backups2 }
      let newMain : CursorConfigFile :=
        { existingConfig with mcpServers := config.enabled }
      match outcome with
      | .mainWriteFails msg =>
          let restoredDisabled := match alistLookup fs1.backups disabledBackupPath with
            | some d => some d
            | none => fs1.disabledFile
          { fs := { fs1 with mainFile := alistLookup fs1.backups backupPath,
                             disabledFile := restoredDisabled },
            error := some ("Failed to save config (restored from backup): " ++ msg) }
      | .disabledWriteFails msg =>
          if (objKeys config.disabled).length > 0 then
            let fs2 : CursorFS := { fs1 with mainFile := some newMain }
            let restoredDisabled := match alistLookup fs2.backups disabledBackupPath with
              | some d => some d
              | none => fs2.disabledFile
            { fs := { fs2 with mainFile := alistLookup fs2.backups backupPath,
                               disabledFile := restoredDisabled },
              error := some ("Failed to save config (restored from backup): " ++ msg) }
          else
            { fs := { fs1 with mainFile := some newMain, disabledFile := none },
              error := none }
      | .allSucceed =>
          if (objKeys config.disabled).length > 0 then
            { fs := { fs1 with
                        mainFile := some newMain,
                        disabledFile :=
                          some { mcpServers := config.disabled, extraFields := [] } },
              error := none }
          else
            { fs := { fs1 with mainFile := some newMain, disabledFile := none },
              error := none }

/-- Content of the VS Code settings file as `ClineAdapter` sees it: the
two Cline server maps (absent keys are `none`) plus all other settings. -/
structure VSCodeSettings where
  clineMcpServers : Option (List (String × MCPServer))
  clineDisabledMcpServers : Option (List (String × MCPServer))
  extraFields : List (String × String)
  deriving Repr, DecidableEq

/-- The slice of the file system a `ClineAdapter` touches. -/
structure ClineFS where
  settingsFile : Option VSCodeSettings
  backups : List (String × VSCodeSettings)
  deriving Repr, DecidableEq

/-- Outcome of a `ClineAdapter.saveConfig` call. -/
structure ClineSaveResult where
  fs : ClineFS
  error : Option String
  deriving Repr, DecidableEq

/-- Embeds `ClineAdapter.saveConfig` (src/src/adapters/base.ts, lines
271–298) together with its `createBackup`: the settings file keeps its
unrelated fields, the disabled key is deleted when the disabled map is
empty, and a write failure restores the settings file from the just-made
backup and re-raises. -/
def clineSaveConfig (fs : ClineFS) (config : MCPConfig) (timestamp : String)
    (writeFails : Option String) : ClineSaveResult :=
  match fs.settingsFile with
  | none => { fs := fs, error := some "VS Code settings not found" }
  | some existingSettings =>
      let backupPath := "cline-" ++ timestamp ++ ".json"
      let fs1 : ClineFS :=
        { fs with backups := alistInsert fs.backups backupPath existingSettings }
      let newSettings : VSCodeSettings :=
        { existingSettings with
            clineMcpServers := some config.enabled,
            clineDisabledMcpServers :=
              if (objKeys config.disabled).length > 0 then some config.disabled
              else none }
      match writeFails with
      | some msg =>
          { fs := { fs1 with settingsFile := alistLookup fs1.backups backupPath },
            error := some ("Failed to save settings (restored from backup): " ++ msg) }
      | none =>
          { fs := { fs1 with settingsFile := some newSettings }, error := none }

theorem cursor_backupPath_ne (t : String) :
    ("cursor-" ++ t ++ ".json") ≠ ("cursor-disabled-" ++ t ++ ".json") := by
  intro h
  have hlen := congrArg String.length h
  simp [String.length_append] at hlen
  exact absurd hlen (by decide)

theorem cursorSaveConfig_mainFail (fs : CursorFS) (config : MCPConfig)
    (timestamp msg : String) (m : CursorConfigFile)
    (hm : fs.mainFile = some m)
    (hfresh : alistLookup fs.backups ("cursor-disabled-" ++ timestamp ++ ".json") = none) :
    (cursorSaveConfig fs config timestamp (.mainWriteFails msg)).error =
      some ("Failed to save config (restored from backup): " ++ msg) ∧
    (cursorSaveConfig fs config timestamp (.mainWriteFails msg)).fs.mainFile = some m ∧
    (cursorSaveConfig fs config timestamp (.mainWriteFails msg)).fs.disabledFile =
      fs.disabledFile := by
  have hne := cursor_backupPath_ne timestamp
  cases hd : fs.disabledFile with
  | none =>
      simp only [cursorSaveConfig, hm, hd]
      refine ⟨by trivial, ?_, ?_⟩
      · simp [alistLookup_alistInsert_self]
      · simp [alistLookup_alistInsert_ne _ _ _ _ (Ne.symm hne), hfresh]
  | some d =>
      simp only [cursorSaveConfig, hm, hd]
      refine ⟨by trivial, ?_, ?_⟩
      · simp [alistLookup_alistInsert_ne _ _ _ _ hne, alistLookup_alistInsert_self]
      · simp [alistLookup_alistInsert_self]

theorem cursorSaveConfig_disabledFail (fs : CursorFS) (config : MCPConfig)
    (timestamp msg : String) (m : CursorConfigFile)
    (hm : fs.mainFile = some m)
    (hfresh : alistLookup fs.backups ("cursor-disabled-" ++ timestamp ++ ".json") = none)
    (hnonempty : (objKeys config.disabled).length > 0) :
    (cursorSaveConfig fs config timestamp (.disabledWriteFails msg)).error =
      some ("Failed to save config (restored from backup): " ++ msg) ∧
    (cursorSaveConfig fs config timestamp (.disabledWriteFails msg)).fs.mainFile = some m ∧
    (cursorSaveConfig fs config timestamp (.disabledWriteFails msg)).fs.disabledFile =
      fs.disabledFile := by
  have hne := cursor_backupPath_ne timestamp
  cases hd : fs.disabledFile with
  | none =>
      simp only [cursorSaveConfig, hm, hd, if_pos hnonempty]
      refine ⟨by trivial, ?_, ?_⟩
      · simp [alistLookup_alistInsert_self]
      · simp [alistLookup_alistInsert_ne _ _ _ _ (Ne.symm hne), hfresh]
  | some d =>
      simp only [cursorSaveConfig, hm, hd, if_pos hnonempty]
      refine ⟨by trivial, ?_, ?_⟩
      · simp [alistLookup_alistInsert_ne _ _ _ _ hne, alistLookup_alistInsert_self]
      · simp [alistLookup_alistInsert_self]

theorem cursorSaveConfig_success (fs : CursorFS) (config : MCPConfig)
    (timestamp : String) (m : CursorConfigFile)
    (hm : fs.mainFile = some m) :
    (cursorSaveConfig fs config timestamp .allSucceed).error = none ∧
    alistLookup (cursorSaveConfig fs config timestamp .allSucceed).fs.backups
      ("cursor-" ++ timestamp ++ ".json") = some m ∧
    (∀ d, fs.disabledFile = some d →
      alistLookup (cursorSaveConfig fs config timestamp .allSucceed).fs.backups
        ("cursor-disabled-" ++ timestamp ++ ".json") = some d) ∧
    (cursorSaveConfig fs config timestamp .allSucceed).fs.mainFile =
      some { m with mcpServers := config.enabled } ∧
    ((objKeys config.disabled).length > 0 →
      (cursorSaveConfig fs config timestamp .allSucceed).fs.disabledFile =
        some { mcpServers := config.disabled, extraFields := [] }) ∧
    (¬ (objKeys config.disabled).length > 0 →
      (cursorSaveConfig fs config timestamp .allSucceed).fs.disabledFile = none) := by
  have hne := cursor_backupPath_ne timestamp
  by_cases hlen : (objKeys config.disabled).length > 0
  · cases hd : fs.disabledFile with
    | none =>
        simp only [cursorSaveConfig, hm, hd, if_pos hlen]
        refine ⟨by trivial, ?_, ?_, by trivial, fun _ => by trivial, fun hc => absurd hlen hc⟩
        · simp [alistLookup_alistInsert_self]
        · intro d hd2; cases hd2
    | some d =>
        simp only [cursorSaveConfig, hm, hd, if_pos hlen]
        refine ⟨by trivial, ?_, ?_, by trivial, fun _ => by trivial, fun hc => absurd hlen hc⟩
        · simp [alistLookup_alistInsert_ne _ _ _ _ hne, alistLookup_alistInsert_self]
        · intro d2 hd2
          cases hd2
          simp [alistLookup_alistInsert_self]
  · cases hd : fs.disabledFile with
    | none =>
        simp only [cursorSaveConfig, hm, hd, if_neg hlen]
        refine ⟨by trivial, ?_, ?_, by trivial, fun hc => absurd hc hlen, fun _ => by trivial⟩
        · simp [alistLookup_alistInsert_self]
        · intro d hd2; cases hd2
    | some d =>
        simp only [cursorSaveConfig, hm, hd, if_neg hlen]
        refine ⟨by trivial, ?_, ?_, by trivial, fun hc => absurd hc hlen, fun _ => by trivial⟩
        · simp [alistLookup_alistInsert_ne _ _ _ _ hne, alistLookup_alistInsert_self]
        · intro d2 hd2
          cases hd2
          simp [alistLookup_alistInsert_self]

theorem clineSaveConfig_fail (fs : ClineFS) (config : MCPConfig)
    (timestamp msg : String) (s : VSCodeSettings)
    (hs : fs.settingsFile = some s) :
    (clineSaveConfig fs config timestamp (some msg)).error =
      some ("Failed to save settings (restored from backup): " ++ msg) ∧
    (clineSaveConfig fs config timestamp (some msg)).fs.settingsFile = some s := by
  simp only [clineSaveConfig, hs]
  exact ⟨by trivial, by simp [alistLookup_alistInsert_self]⟩

theorem clineSaveConfig_success (fs : ClineFS) (config : MCPConfig)
    (timestamp : String) (s : VSCodeSettings)
    (hs : fs.settingsFile = some s) :
    (clineSaveConfig fs config timestamp none).error = none ∧
    alistLookup (clineSaveConfig fs config timestamp none).fs.backups
      ("cline-" ++ timestamp ++ ".json") = some s ∧
    (clineSaveConfig fs config timestamp none).fs.settingsFile =
      some { s with
              clineMcpServers := some config.enabled,
              clineDisabledMcpServers :=
                if (objKeys config.disabled).length > 0 then some config.disabled
                else none } := by
  simp only [clineSaveConfig, hs]
  exact ⟨by trivial, by simp [alistLookup_alistInsert_self], by trivial⟩

/-- C5: saveConfig first snapshots the current on-disk file(s) into the
backup directory; if the subsequent write fails it restores the live
file(s) from that just-made backup and re-raises an error wrapping the
cause, leaving the original on-disk content intact (for Cursor both the
main and the separate disabled backup are restored); on success a backup
file holds the pre-save content and the live file(s) equal the new
snapshot.  Stated for CursorAdapter (separate disabled file) and
ClineAdapter (synthetic key in one settings file). -/
theorem c5_saveConfig_backup_restore (fs : CursorFS) (cfs : ClineFS)
    (config : MCPConfig) (timestamp : String) (m : CursorConfigFile)
    (s : VSCodeSettings)
    (hm : fs.mainFile = some m)
    (hfresh : alistLookup fs.backups
      ("cursor-disabled-" ++ timestamp ++ ".json") = none)
    (hs : cfs.settingsFile = some s) :
    (∀ msg,
      (cursorSaveConfig fs config timestamp (.mainWriteFails msg)).error =
        some ("Failed to save config (restored from backup): " ++ msg) ∧
      (cursorSaveConfig fs config timestamp (.mainWriteFails msg)).fs.mainFile =
        some m ∧
      (cursorSaveConfig fs config timestamp (.mainWriteFails msg)).fs.disabledFile =
        fs.disabledFile) ∧
    (∀ msg, (objKeys config.disabled).length > 0 →
      (cursorSaveConfig fs config timestamp (.disabledWriteFails msg)).error =
        some ("Failed to save config (restored from backup): " ++ msg) ∧
      (cursorSaveConfig fs config timestamp (.disabledWriteFails msg)).fs.mainFile =
        some m ∧
      (cursorSaveConfig fs config timestamp
        (.disabledWriteFails msg)).fs.disabledFile = fs.disabledFile) ∧
    ((cursorSaveConfig fs config timestamp .allSucceed).error = none ∧
      alistLookup (cursorSaveConfig fs config timestamp .allSucceed).fs.backups
        ("cursor-" ++ timestamp ++ ".json") = some m ∧
      (∀ d, fs.disabledFile = some d →
        alistLookup (cursorSaveConfig fs config timestamp .allSucceed).fs.backups
          ("cursor-disabled-" ++ timestamp ++ ".json") = some d) ∧
      (cursorSaveConfig fs config timestamp .allSucceed).fs.mainFile =
        some { m with mcpServers := config.enabled } ∧
      ((objKeys config.disabled).length > 0 →
        (cursorSaveConfig fs config timestamp .allSucceed).fs.disabledFile =
          some { mcpServers := config.disabled, extraFields := [] }) ∧
      (¬ (objKeys config.disabled).length > 0 →
        (cursorSaveConfig fs config timestamp .allSucceed).fs.disabledFile =
          none)) ∧
    (∀ msg,
      (clineSaveConfig cfs config timestamp (some msg)).error =
        some ("Failed to save settings (restored from backup): " ++ msg) ∧
      (clineSaveConfig cfs config timestamp (some msg)).fs.settingsFile =
        some s) ∧
    ((clineSaveConfig cfs config timestamp none).error = none ∧
      alistLookup (clineSaveConfig cfs config timestamp none).fs.backups
        ("cline-" ++ timestamp ++ ".json") = some s ∧
      (clineSaveConfig cfs config timestamp none).fs.settingsFile =
        some { s with
                clineMcpServers := some config.enabled,
                clineDisabledMcpServers :=
                  if (objKeys config.disabled).length > 0 then
                    some config.disabled
                  else none }) :=
  ⟨fun msg => cursorSaveConfig_mainFail fs config timestamp msg m hm hfresh,
   fun msg hn => cursorSaveConfig_disabledFail fs config timestamp msg m hm hfresh hn,
   cursorSaveConfig_success fs config timestamp m hm,
   fun msg => clineSaveConfig_fail cfs config timestamp msg s hs,
   clineSaveConfig_success cfs config timestamp s hs⟩

/-- Cursor main config content for the C5 witness, with an unrelated
top-level field to preserve. -/
def c5SampleMain : CursorConfigFile :=
  { mcpServers := [("a", { command := "run-a" })],
    extraFields := [("theme", "dark")] }

/-- Cursor disabled-file content for the C5 witness. -/
def c5SampleDisabled : CursorConfigFile :=
  { mcpServers := [("b", { command := "run-b" })], extraFields := [] }

/-- Cursor file-system state for the C5 witness. -/
def c5SampleCursorFS : CursorFS :=
  { mainFile := some c5SampleMain,
    disabledFile := some c5SampleDisabled,
    backups := [] }

/-- VS Code settings content for the C5 witness. -/
def c5SampleSettings : VSCodeSettings :=
  { clineMcpServers := some [("a", { command := "run-a" })],
    clineDisabledMcpServers := none,
    extraFields := [("editor.fontSize", "14")] }

/-- Cline file-system state for the C5 witness. -/
def c5SampleClineFS : ClineFS :=
  { settingsFile := some c5SampleSettings, backups := [] }

/-- New snapshot written by the C5 witness. -/
def c5SampleNewConfig : MCPConfig :=
  { enabled := [("a2", { command := "run-a2" })],
    disabled := [("b2", { command := "run-b2" })] }

/-- Witness for C5 at concrete file-system states: a failed main write
restores the Cursor main file, a successful save rewrites it from the new
snapshot and keeps the pre-save backup, and a failed Cline write restores
the settings file. -/
theorem c5_saveConfig_backup_restore_witness :
    (cursorSaveConfig c5SampleCursorFS c5SampleNewConfig
        "2024-01-02T03-04-05-678Z" (.mainWriteFails "disk full")).fs.mainFile =
      some c5SampleMain ∧
    (cursorSaveConfig c5SampleCursorFS c5SampleNewConfig
        "2024-01-02T03-04-05-678Z" .allSucceed).fs.mainFile =
      some { c5SampleMain with mcpServers := c5SampleNewConfig.enabled } ∧
    alistLookup (cursorSaveConfig c5SampleCursorFS c5SampleNewConfig
        "2024-01-02T03-04-05-678Z" .allSucceed).fs.backups
      ("cursor-" ++ "2024-01-02T03-04-05-678Z" ++ ".json") = some c5SampleMain ∧
    (clineSaveConfig c5SampleClineFS c5SampleNewConfig
        "2024-01-02T03-04-05-678Z" (some "disk full")).fs.settingsFile =
      some c5SampleSettings :=
  ⟨((c5_saveConfig_backup_restore c5SampleCursorFS c5SampleClineFS
      c5SampleNewConfig "2024-01-02T03-04-05-678Z" c5SampleMain c5SampleSettings
      (by decide) (by decide) (by decide)).1 "disk full").2.1,
   (c5_saveConfig_backup_restore c5SampleCursorFS c5SampleClineFS
      c5SampleNewConfig "2024-01-02T03-04-05-678Z" c5SampleMain c5SampleSettings
      (by decide) (by decide) (by decide)).2.2.1.2.2.2.1,
   (c5_saveConfig_backup_restore c5SampleCursorFS c5SampleClineFS
      c5SampleNewConfig "2024-01-02T03-04-05-678Z" c5SampleMain c5SampleSettings
      (by decide) (by decide) (by decide)).2.2.1.2.1,
   ((c5_saveConfig_backup_restore c5SampleCursorFS c5SampleClineFS
      c5SampleNewConfig "2024-01-02T03-04-05-678Z" c5SampleMain c5SampleSettings
      (by decide) (by decide) (by decide)).2.2.2.1 "disk full").2⟩

/-- Civil (year, month, day) from days since 1970-01-01 (Howard
Hinnant's civil-from-days algorithm, restricted to nonnegative days). -/
def civilFromDays (z0 : Nat) : Nat × Nat × Nat :=
  let z := z0 + 719468
  let era := z / 146097
  let doe := z % 146097
  let yoe := (doe - doe / 1460 + doe / 36524 - doe / 146096) / 365
  let y := yoe + era * 400
  let doy := doe - (365 * yoe + yoe / 4 - yoe / 100)
  let mp := (5 * doy + 2) / 153
  let d := doy - (153 * mp + 2) / 5 + 1
  let mo := if mp < 10 then mp + 3 else mp - 9
  (if mo ≤ 2 then y + 1 else y, mo, d)

/-- Two-digit zero padding of a field of the ISO timestamp. -/
def pad2 (n : Nat) : String :=
  if n < 10 then "0" ++ toString n else toString n

/-- Three-digit zero padding of the millisecond field. -/
def pad3 (n : Nat) : String :=
  if n < 10 then "00" ++ toString n
  else if n < 100 then "0" ++ toString n
  else toString n

/-- Embeds JS `new Date(ms).toISOString()` for nonnegative epoch
milliseconds: UTC, shape `YYYY-MM-DDTHH:MM:SS.mmmZ`, millisecond
precision — the only clock-dependent input to a backup filename. -/
def toISOString (ms : Nat) : String :=
  let msPart := ms % 1000
  let totalSec := ms / 1000
  let sec := totalSec % 60
  let minute := (totalSec / 60) % 60
  let hour := (totalSec / 3600) % 24
  let days := totalSec / 86400
  let ymd := civilFromDays days
  toString ymd.1 ++ "-" ++ pad2 ymd.2.1 ++ "-" ++ pad2 ymd.2.2 ++ "T" ++
    pad2 hour ++ ":" ++ pad2 minute ++ ":" ++ pad2 sec ++ "." ++ pad3 msPart ++ "Z"

/-- Embeds the `.replace(/[:.]/g, '-')` the adapters apply to the ISO
timestamp before using it in a filename. -/
def replaceColonsDots (s : String) : String :=
  String.mk (s.data.map (fun c => if c = ':' ∨ c = '.' then '-' else c))

/-- The backup-filename timestamp as a function of the call's clock
reading in microseconds: `new Date()` truncates to whole milliseconds
before `toISOString` formats it. -/
def backupTimestamp (us : Nat) : String :=
  replaceColonsDots (toISOString (us / 1000))

/-- Embeds the backup filename computed by `ClaudeAdapter.createBackup`
(src/unnamed/part_003, lines 45–58), relative to the backup directory, as
a function of the call time in microseconds. -/
def claudeBackupPath (us : Nat) : String :=
  "claude-" ++ backupTimestamp us ++ ".json"

/-- Counterexample to C7: two createBackup calls at distinct times inside
the same millisecond tick (0 µs and 500 µs after the epoch) produce the
identical backup path, so the later backup overwrites the earlier one. -/
theorem c7_counterexample :
    (0 : Nat) ≠ 500 ∧ claudeBackupPath 0 = claudeBackupPath 500 :=
  ⟨by decide, rfl⟩

/-- C7 amended: two createBackup calls return distinct backup paths
exactly when their formatted timestamp strings differ; since the
timestamp has only millisecond resolution, two calls whose clock readings
fall in the same millisecond always return the identical path (and the
later backup overwrites the earlier), with no further disambiguator. -/
theorem c7_backup_paths_amended (us1 us2 : Nat) :
    (claudeBackupPath us1 = claudeBackupPath us2 ↔
      backupTimestamp us1 = backupTimestamp us2) ∧
    (us1 / 1000 = us2 / 1000 → claudeBackupPath us1 = claudeBackupPath us2) := by
  constructor
  · constructor
    · intro h
      unfold claudeBackupPath at h
      have hd := congrArg String.data h
      simp only [String.data_append] at hd
      have h1 := List.append_cancel_right hd
      have h2 := List.append_cancel_left h1
      exact String.ext h2
    · intro h
      unfold claudeBackupPath
      rw [h]
  · intro h
    unfold claudeBackupPath backupTimestamp
    rw [h]

/-- Witness for C7 (amended): two calls in the same millisecond yield the
same path via the theorem. -/
theorem c7_backup_paths_amended_witness :
    claudeBackupPath 123456 = claudeBackupPath 123999 :=
  (c7_backup_paths_amended 123456 123999).2 (by decide)
